import Mathlib

/-!
Verification development for the AgenticEDA repository.

The repository is a small EDA assistant: `src/app.py` (ingestion,
export, UI orchestration), `src/utils/cleaning.py` (mean imputation and
duplicate-row removal over a pandas DataFrame plus a shared
transformation log), `src/utils/eda.py` (summary statistics and
ML-readiness messages) and `src/utils/llm.py` (advisory calls to an
external LLM service).

Shallow embedding conventions:
- A pandas DataFrame is a header of (column name, dtype) pairs plus a
  list of rows; a cell is a rational number, a string, a datetime
  (abstracted as an integer timestamp) or the missing value NaN
  (`Cell.na`).  Floating-point numerics are idealized as exact
  rationals.
- Columns are addressed positionally.  pandas itself mangles duplicate
  column names at CSV parse time, so name-based column access in the
  source is faithfully modelled by positional access.
- External collaborators (the CSV parser, the filesystem, the Jinja2
  template renderer, the LLM HTTP client) are taken as function
  parameters; the repository's own logic around them is embedded
  concretely.
-/

/-- The pandas dtypes that the source distinguishes: numeric
(`select_dtypes(include=['number'])`), `object` (free text), and
`datetime64[ns]`. -/
inductive Dtype
  | numeric
  | object
  | datetime
deriving DecidableEq, Repr

/-- One cell of a DataFrame.  `na` is the missing value (NaN/NaT). -/
inductive Cell
  | num (q : ℚ)
  | str (s : String)
  | dt (t : ℤ)
  | na
deriving DecidableEq, Repr

/-- A pandas DataFrame: named, dtyped columns and a list of rows. -/
structure DataFrame where
  header : List (String × Dtype)
  rows : List (List Cell)
deriving DecidableEq, Repr

/-- Rectangularity: every row has one cell per column. -/
def DataFrame.Wf (df : DataFrame) : Prop :=
  ∀ r ∈ df.rows, r.length = df.header.length

instance (df : DataFrame) : Decidable df.Wf := by
  unfold DataFrame.Wf; infer_instance

/-- Column `i` of a row list (`df[col]` viewed positionally). -/
def getCol (rows : List (List Cell)) (i : ℕ) : List Cell :=
  rows.map (fun r => r.getD i Cell.na)

/-- Replace column `i` pointwise by `f` (in-place column assignment). -/
def mapCol (rows : List (List Cell)) (i : ℕ) (f : Cell → Cell) : List (List Cell) :=
  rows.map (fun r => r.set i (f (r.getD i Cell.na)))

/-- Pair every element of a list with its position, starting at `n`. -/
def withIdx : ℕ → List α → List (ℕ × α)
  | _, [] => []
  | n, a :: as => (n, a) :: withIdx (n + 1) as

/-- `df[col].isnull().sum()` for one column. -/
def naCount (cells : List Cell) : ℕ :=
  cells.count Cell.na

/-- The numeric entries of a column (what pandas aggregates over,
skipping NaN). -/
def cellNum? : Cell → Option ℚ
  | Cell.num q => some q
  | _ => none

/-- `df[col].mean()`: arithmetic mean over the non-missing numeric
entries; `none` models the NaN produced when no such entry exists. -/
def colMean (cells : List Cell) : Option ℚ :=
  let xs := cells.filterMap cellNum?
  if xs.length = 0 then none else some (xs.sum / (xs.length : ℚ))

/-- `fillna(m)` on one cell: a missing cell becomes `m`; filling with
NaN (`m = none`, the all-missing-column case) changes nothing. -/
def fillCell (m : Option ℚ) (c : Cell) : Cell :=
  match m with
  | none => c
  | some q => if c = Cell.na then Cell.num q else c

/-- The log entry `impute_missing_values` appends for column `col`:
`df['<col>'].fillna(df['<col>'].mean(), inplace=True)  # Imputed missing values in '<col>'`. -/
def imputeEntry (col : String) : String :=
  "df[\x27" ++ col ++ "\x27].fillna(df[\x27" ++ col ++
    "\x27].mean(), inplace=True)  # Imputed missing values in \x27" ++ col ++ "\x27"

/-- The numeric columns of a header, as (position, name) pairs in
original column order (`df.select_dtypes(include=['number']).columns`). -/
def numericCols (header : List (String × Dtype)) : List (ℕ × String) :=
  (withIdx 0 header).filterMap
    (fun p => if p.2.2 = Dtype.numeric then some (p.1, p.2.1) else none)

/-- The loop body of `impute_missing_values`: for each numeric column in
order, if it has at least one missing value, fill missing entries with
the column mean and append one log entry naming the column. -/
def imputeLoop : List (ℕ × String) → DataFrame → List String → DataFrame × List String
  | [], df, log => (df, log)
  | (i, name) :: rest, df, log =>
    let col := getCol df.rows i
    if 0 < naCount col then
      imputeLoop rest ⟨df.header, mapCol df.rows i (fillCell (colMean col))⟩
        (log ++ [imputeEntry name])
    else
      imputeLoop rest df log

/-- `cleaning.impute_missing_values(df, transformation_log)`. -/
def impute_missing_values (df : DataFrame) (log : List String) : DataFrame × List String :=
  imputeLoop (numericCols df.header) df log

/-- The numeric columns that hold at least one missing value (the ones
the imputation loop logs). -/
def affectedCols (df : DataFrame) : List (ℕ × String) :=
  (numericCols df.header).filter (fun p => decide (0 < naCount (getCol df.rows p.1)))

/-- First-occurrence duplicate removal: `seen` is the set of row values
already kept.  This is `DataFrame.drop_duplicates` row semantics (pandas
treats NaN as equal to NaN when detecting duplicates, as does `Cell`
equality here). -/
def dedupAux : List (List Cell) → List (List Cell) → List (List Cell)
  | _, [] => []
  | seen, r :: rs =>
    if r ∈ seen then dedupAux seen rs else r :: dedupAux (r :: seen) rs

/-- `df.drop_duplicates(inplace=True)` on the row list. -/
def dedup (rows : List (List Cell)) : List (List Cell) :=
  dedupAux [] rows

/-- `df.shape` rendered the way Python prints the tuple. -/
def shapeStr (df : DataFrame) : String :=
  "(" ++ toString df.rows.length ++ ", " ++ toString df.header.length ++ ")"

/-- The log entry `drop_duplicates` appends, recording the shape before
and after. -/
def dropEntry (before after : String) : String :=
  "df.drop_duplicates(inplace=True)  # Dropped duplicates. Shape from " ++
    before ++ " to " ++ after

/-- `cleaning.drop_duplicates(df, transformation_log)`. -/
def drop_duplicates (df : DataFrame) (log : List String) : DataFrame × List String :=
  let initial_shape := shapeStr df
  let df2 : DataFrame := ⟨df.header, dedup df.rows⟩
  (df2, log ++ [dropEntry initial_shape (shapeStr df2)])

/-- Spec-side rendering of the duplicate-removal contract, written from
the spec's words: a row is removed exactly when it is an exact duplicate
of an earlier row of the original table (`pre` accumulates all earlier
original rows), so the first occurrence of each duplicate group is
preserved in original order. -/
def specKeep : List (List Cell) → List (List Cell) → List (List Cell)
  | _, [] => []
  | pre, r :: rs =>
    if r ∈ pre then specKeep (pre ++ [r]) rs else r :: specKeep (pre ++ [r]) rs

/-- Boolean prefix test on character lists. -/
def isPre : List Char → List Char → Bool
  | [], _ => true
  | _ :: _, [] => false
  | a :: as, b :: bs => a == b && isPre as bs

/-- Boolean substring test on character lists (Python's `in`). -/
def listContains (needle : List Char) : List Char → Bool
  | [] => isPre needle []
  | c :: cs => isPre needle (c :: cs) || listContains needle cs

/-- Python's `sub in s` on strings. -/
def strContains (s sub : String) : Bool :=
  listContains sub.data s.data

/-- Round half to even, the rounding used by Python's fixed-point float
formatting; the float value is idealized as an exact rational. -/
def rhe (q : ℚ) : ℤ :=
  let f := q.floor
  let r := q - (f : ℚ)
  if r < 1 / 2 then f
  else if 1 / 2 < r then f + 1
  else if f % 2 = 0 then f else f + 1

/-- Python's `f"{q:.1f}"` for a nonnegative value, idealized over ℚ. -/
def fmt1 (q : ℚ) : String :=
  let n := rhe (q * 10)
  toString (n / 10) ++ "." ++ toString (n % 10)

/-- The readiness message `f"Column '{col}' has {pct*100:.1f}% missing values."`. -/
def missingMsg (col : String) (pct : ℚ) : String :=
  "Column \x27" ++ col ++ "\x27 has " ++ fmt1 (pct * 100) ++ "% missing values."

/-- The readiness message for an `object`-dtype column. -/
def encodingMsg (col : String) : String :=
  "Column \x27" ++ col ++ "\x27 is categorical/text type and may need encoding."

/-- The readiness message for a `datetime64[ns]`-dtype column. -/
def datetimeMsg (col : String) : String :=
  "Column \x27" ++ col ++ "\x27 is a datetime and may need feature engineering."

/-- The fixed Decision Tree task note. -/
def decisionTreeMsg : String :=
  "Decision Trees can handle both numerical and categorical data."

/-- The fixed Self-supervised Learning task note. -/
def selfSupervisedMsg : String :=
  "Self-supervised learning typically requires a large amount of unlabeled data."

/-- The task-specific tail of `check_ml_readiness` (empty for any task
other than the two recognized ones, in particular for "Other"). -/
def taskNotes (ml_task : String) : List String :=
  if ml_task = "Decision Tree" then [decisionTreeMsg]
  else if ml_task = "Self-supervised Learning" then [selfSupervisedMsg]
  else []

/-- `eda.check_ml_readiness(df, ml_task)`: per-column missing-percentage
messages (`df.isnull().mean()`, message emitted when the fraction is
positive), then per-column dtype messages, then the task note. -/
def check_ml_readiness (df : DataFrame) (ml_task : String) : List String :=
  let missingMsgs :=
    (withIdx 0 df.header).filterMap (fun p =>
      let pct : ℚ := (naCount (getCol df.rows p.1) : ℚ) / (df.rows.length : ℚ)
      if 0 < pct then some (missingMsg p.2.1 pct) else none)
  let dtypeMsgs :=
    df.header.filterMap (fun p =>
      match p.2 with
      | Dtype.object => some (encodingMsg p.1)
      | Dtype.datetime => some (datetimeMsg p.1)
      | Dtype.numeric => none)
  missingMsgs ++ dtypeMsgs ++ taskNotes ml_task

/-- Attribute names the Python `os` module actually defines among those
this repository could reach for: the credential reader is `os.getenv`.
The source's `os.get_env` is not an attribute of `os`, so evaluating it
raises `AttributeError` before any credential check happens. -/
def osModuleAttrs : List String :=
  ["getenv", "environ", "name", "path", "makedirs"]

/-- Outcome of calling a Python function: a returned string or a raised
exception (rendered as its message). -/
inductive PyOutcome
  | ok (s : String)
  | exn (e : String)
deriving DecidableEq, Repr

/-- The exception raised when the llm module evaluates `os.get_env`. -/
def getEnvAttributeError : String :=
  "AttributeError: module \x27os\x27 has no attribute \x27get_env\x27"

/-- The fixed message both advisory functions intend to return when no
credential is configured. -/
def keyNotSetMsg : String :=
  "OpenAI API key not set. Please set the OPENAI_API_KEY environment variable."

/-- `llm.get_cleaning_suggestions(data_summary, ml_task)`.
`env` is the process environment, `svc` the external chat-completion
service (its `Except.error` is a raised transport/service exception).
The first statement evaluates `os.get_env("OPEN_AI_KEY")`: the attribute
lookup itself raises unless `get_env` is an attribute of `os`. -/
def get_cleaning_suggestions (env : String → Option String)
    (svc : String → Except String String) (data_summary ml_task : String) : PyOutcome :=
  if "get_env" ∈ osModuleAttrs then
    let openai_api_key := (env "OPEN_AI_KEY").getD ""
    if openai_api_key = "" then PyOutcome.ok keyNotSetMsg
    else
      let prompt :=
        "Given the following data summary:\n\n" ++ data_summary ++
          "\n\nWhat data cleaning steps would you recommend to prepare the data for a machine learning task?" ++
          "And given that the selected ML task is: " ++ ml_task ++ "\n\n"
      match svc prompt with
      | Except.ok suggestion => PyOutcome.ok suggestion
      | Except.error e => PyOutcome.ok ("Error fetching LLM suggestions: " ++ e)
  else
    PyOutcome.exn getEnvAttributeError

/-- `llm.get_additional_checks(data_summary, ml_task)`; same structure,
different prompt and error prefix. -/
def get_additional_checks (env : String → Option String)
    (svc : String → Except String String) (data_summary ml_task : String) : PyOutcome :=
  if "get_env" ∈ osModuleAttrs then
    let openai_api_key := (env "OPEN_AI_KEY").getD ""
    if openai_api_key = "" then PyOutcome.ok keyNotSetMsg
    else
      let prompt :=
        "Given the following data summary:\n\n" ++ data_summary ++
          "\n\nAnd given that the selected ML task is: " ++ ml_task ++ "\n\n" ++
          "Please suggest additional visualizations or checks that should be performed to ensure the dataset is ready for the ML task. " ++
          "Provide complete, runnable Python code that defines a function named \x27additional_checks(df)\x27 which, when executed, produces these visualizations or checks. " ++
          "Include necessary imports (e.g., matplotlib and seaborn) and ensure the code is self-contained."
      match svc prompt with
      | Except.ok code => PyOutcome.ok code
      | Except.error e => PyOutcome.ok ("Error fetching additional checks: " ++ e)
  else
    PyOutcome.exn getEnvAttributeError

/-- The lines of the script built by `app.export_transformation_script`:
a fixed header (with the generation timestamp `ts`), one indented line
per log entry verbatim and in order, then `    return df`. -/
def scriptLines (ts : String) (log : List String) : List String :=
  ["# Transformation Script",
   "# Generated on: " ++ ts,
   "",
   "import pandas as pd",
   "",
   "def transform_data(df):",
   "    # Transformation steps applied"]
  ++ log.map (fun step => "    " ++ step)
  ++ ["    return df"]

/-- The file content written by `export_transformation_script`. -/
def scriptContent (ts : String) (log : List String) : String :=
  String.intercalate "\n" (scriptLines ts log)

/-- The body of the generated `transform_data` function (everything
below the `def` line). -/
def transformBody (ts : String) (log : List String) : List String :=
  (scriptLines ts log).drop 6

/-- Leading spaces of a line, stripped. -/
def dropLeadingSpaces : List Char → List Char
  | [] => []
  | c :: cs => if c = ' ' then dropLeadingSpaces cs else c :: cs

/-- A Python comment line (no-op statement). -/
def isCommentLine (l : String) : Bool :=
  match dropLeadingSpaces l.data with
  | [] => false
  | c :: _ => c == '#'

/-- Minimal semantics of a generated `transform_data` body over an
abstract dataset `df`: comments are skipped, `    return df` returns the
input, anything else (a logged transformation statement) is outside this
fragment; falling off the end returns `none`. -/
def runBody (df : α) : List String → Option α
  | [] => none
  | l :: ls =>
    if l = "    return df" then some df
    else if isCommentLine l then runBody df ls
    else none

/-- `'date' in col.lower()`. -/
def containsDateCi (col : String) : Bool :=
  listContains "date".data (col.data.map Char.toLower)

/-- The notice `main` surfaces about date parsing. -/
inductive Notice
  | info (s : String)
  | warn (s : String)
deriving DecidableEq, Repr

/-- Whether the coercion loop rewrites column `j`: it must be an
`object`-dtype column whose name is not among the date columns. -/
def shouldCoerce (header : List (String × Dtype)) (dateColumns : List String) (j : ℕ) : Bool :=
  match header.getD j ("", Dtype.numeric) with
  | (nm, Dtype.object) => decide (nm ∉ dateColumns)
  | _ => false

/-- Python's `str(x)` for the values an object column can hold;
`str(nan)` is `"nan"`.  The exact numeric rendering is Python's and is
immaterial to the claims. -/
def pyStr : Cell → String
  | Cell.num q => toString q
  | Cell.str s => s
  | Cell.dt t => toString t
  | Cell.na => "nan"

/-- One row of the coercion loop
`df[col] = df[col].astype(str)` applied to the non-date object columns. -/
def coerceRow (header : List (String × Dtype)) (dateColumns : List String)
    (r : List Cell) : List Cell :=
  (withIdx 0 r).map
    (fun p => if shouldCoerce header dateColumns p.1 then Cell.str (pyStr p.2) else p.2)

/-- The whole coercion loop over a DataFrame (dtypes stay `object`). -/
def coerceObjects (dateColumns : List String) (df : DataFrame) : DataFrame :=
  ⟨df.header, df.rows.map (coerceRow df.header dateColumns)⟩

/-- The ingestion portion of `app.main`: parse once without hints to see
the column names, pick the date-like columns, re-parse the stream from
its start (`uploaded_file.seek(0)`) with `parse_dates` when any exist —
otherwise parse plainly and warn — then coerce non-date object columns
to strings.  `read none` is `pd.read_csv(file, low_memory=False)`;
`read (some cols)` adds `parse_dates=cols`. -/
def ingest (read : Option (List String) → DataFrame) : DataFrame × Notice :=
  let df0 := read none
  let date_columns := (df0.header.map Prod.fst).filter containsDateCi
  if date_columns = [] then
    (coerceObjects date_columns (read none),
     Notice.warn "No date columns detected in the dataset")
  else
    (coerceObjects date_columns (read (some date_columns)),
     Notice.info ("Date parsing applied to columns: " ++ String.intercalate ", " date_columns))

/-- The three export buttons of `app.main`. -/
inductive ExportAction
  | csv
  | script
  | report
deriving DecidableEq, Repr

/-- The session state the export actions can see. -/
structure AppState where
  df : DataFrame
  transformation_log : List String
deriving DecidableEq, Repr

/-- Path and file content produced by one export action.  `toCsv` is the
external `DataFrame.to_csv` serializer and `renderReport` the external
Jinja2 template rendering (`eda.generate_eda_report`); the script
content is the repository's own. -/
def exportArtifact (toCsv : DataFrame → String)
    (renderReport : DataFrame → List String → String) (ts : String) :
    ExportAction → AppState → String × String
  | ExportAction.csv, st =>
    ("export/cleaned_data_" ++ ts ++ ".csv", toCsv st.df)
  | ExportAction.script, st =>
    ("export/transformation_script.py", scriptContent ts st.transformation_log)
  | ExportAction.report, st =>
    ("export/eda_report_" ++ ts ++ ".html", renderReport st.df st.transformation_log)

/-- The success message each export button shows. -/
def exportSuccessMsg : ExportAction → String → String
  | ExportAction.csv, path => "Cleaned data exported to " ++ path
  | ExportAction.script, path => "Transformation script exported to " ++ path
  | ExportAction.report, path => "EDA report exported to " ++ path

/-- One export button press as `main` runs it: compute the artifact from
the current state, attempt the filesystem write (`write path content`
returns `some e` on an `OSError` with message `e`), and surface either
the success message or — through `main`'s surrounding `except` block —
the error message.  The session state is returned unchanged in both
cases and no exception escapes. -/
def runExport (toCsv : DataFrame → String)
    (renderReport : DataFrame → List String → String)
    (write : String → String → Option String) (ts : String)
    (a : ExportAction) (st : AppState) : AppState × String :=
  let art := exportArtifact toCsv renderReport ts a st
  match write art.1 art.2 with
  | none => (st, exportSuccessMsg a art.1)
  | some e => (st, "Error reading the CSV file: " ++ e)

/-- Repeated user-triggered imputation: `k` successive presses of the
"Impute Missing Values" checkbox action on the same session state. -/
def imputeIter : ℕ → DataFrame × List String → DataFrame × List String
  | 0, s => s
  | k + 1, s => imputeIter k (impute_missing_values s.1 s.2)

/-- A dataset whose single numeric column has no missing value. -/
def dfNoMissing : DataFrame :=
  ⟨[("a", Dtype.numeric)], [[Cell.num 1]]⟩

/-- A dataset with one numeric column that is 50 percent missing. -/
def dfMissingHalf : DataFrame :=
  ⟨[("value", Dtype.numeric)], [[Cell.na], [Cell.num 1]]⟩

/-- A dataset with an untouched id column and a numeric column with one
missing entry. -/
def dfImputeW : DataFrame :=
  ⟨[("id", Dtype.numeric), ("value", Dtype.numeric)],
   [[Cell.num 1, Cell.na], [Cell.num 2, Cell.num 4]]⟩

/-- A dataset whose numeric column is entirely missing. -/
def dfAllNa : DataFrame :=
  ⟨[("value", Dtype.numeric)], [[Cell.na], [Cell.na]]⟩

/-- A concrete CSV reader: the first pass sees a date-named object
column; the re-parse with the date hint types it as datetime. -/
def readW : Option (List String) → DataFrame
  | none =>
    ⟨[("id", Dtype.numeric), ("start_Date", Dtype.object), ("note", Dtype.object)],
     [[Cell.num 1, Cell.str "2020-01-01", Cell.num 3]]⟩
  | some _ =>
    ⟨[("id", Dtype.numeric), ("start_Date", Dtype.datetime), ("note", Dtype.object)],
     [[Cell.num 1, Cell.dt 18262, Cell.num 3]]⟩


lemma withIdx_mem_le {p : ℕ × α} : ∀ {n : ℕ} {l : List α}, p ∈ withIdx n l → n ≤ p.1 := by
  intro n l
  induction l generalizing n with
  | nil => intro h; simp [withIdx] at h
  | cons a as ih =>
    intro h
    simp only [withIdx, List.mem_cons] at h
    rcases h with h | h
    · subst h; exact le_refl _
    · exact Nat.le_of_succ_le (ih h)

lemma withIdx_mem_lt {p : ℕ × α} : ∀ {n : ℕ} {l : List α}, p ∈ withIdx n l → p.1 < n + l.length := by
  intro n l
  induction l generalizing n with
  | nil => intro h; simp [withIdx] at h
  | cons a as ih =>
    intro h
    simp only [withIdx, List.mem_cons] at h
    rcases h with h | h
    · subst h; simp
    · have := ih h
      simp only [List.length_cons]
      omega

lemma withIdx_mem_getElem {p : ℕ × α} : ∀ {n : ℕ} {l : List α},
    p ∈ withIdx n l → l[p.1 - n]? = some p.2 := by
  intro n l
  induction l generalizing n with
  | nil => intro h; simp [withIdx] at h
  | cons a as ih =>
    intro h
    simp only [withIdx, List.mem_cons] at h
    rcases h with h | h
    · subst h; simp
    · have h1 := withIdx_mem_le h
      have h2 := ih h
      have h3 : p.1 - n = (p.1 - (n + 1)) + 1 := by omega
      rw [h3]
      simpa using h2

lemma getElem_mem_withIdx {x : α} : ∀ {n j : ℕ} {l : List α},
    l[j]? = some x → (n + j, x) ∈ withIdx n l := by
  intro n j l
  induction l generalizing n j with
  | nil => intro h; simp at h
  | cons a as ih =>
    intro h
    cases j with
    | zero =>
      simp at h
      subst h
      simp [withIdx]
    | succ j =>
      simp at h
      have := ih (n := n + 1) h
      simp only [withIdx, List.mem_cons]
      right
      have h3 : n + 1 + j = n + (j + 1) := by omega
      rwa [h3] at this

lemma withIdx_map_fst_nodup : ∀ (n : ℕ) (l : List α), ((withIdx n l).map Prod.fst).Nodup := by
  intro n l
  induction l generalizing n with
  | nil => simp [withIdx]
  | cons a as ih =>
    simp only [withIdx, List.map_cons, List.nodup_cons]
    refine ⟨?_, ih (n + 1)⟩
    intro hmem
    rcases List.mem_map.1 hmem with ⟨p, hp, hfst⟩
    have := withIdx_mem_le hp
    omega

lemma filterMap_ite_eq_map_filter (l : List β) (c : β → Prop) [DecidablePred c] (g : β → γ) :
    l.filterMap (fun a => if c a then some (g a) else none) =
      (l.filter (fun a => decide (c a))).map g := by
  induction l with
  | nil => rfl
  | cons a as ih =>
    by_cases h : c a <;> simp [List.filterMap_cons, List.filter_cons, h, ih]

lemma numericCols_eq_filter (header : List (String × Dtype)) :
    numericCols header =
      ((withIdx 0 header).filter (fun p => decide (p.2.2 = Dtype.numeric))).map
        (fun p => (p.1, p.2.1)) := by
  unfold numericCols
  exact filterMap_ite_eq_map_filter _ _ _

lemma numericCols_fst_nodup (header : List (String × Dtype)) :
    ((numericCols header).map Prod.fst).Nodup := by
  rw [numericCols_eq_filter, List.map_map]
  have hcomp : (Prod.fst ∘ fun p : ℕ × String × Dtype => (p.1, p.2.1)) = Prod.fst := by
    funext p; rfl
  rw [hcomp]
  exact List.Nodup.sublist ((List.filter_sublist _).map Prod.fst) (withIdx_map_fst_nodup 0 header)

lemma numericCols_mem_iff {header : List (String × Dtype)} {j : ℕ} {nm : String} :
    (j, nm) ∈ numericCols header ↔ (j, (nm, Dtype.numeric)) ∈ withIdx 0 header := by
  unfold numericCols
  rw [List.mem_filterMap]
  constructor
  · rintro ⟨⟨i, nm0, dt⟩, ha, hfa⟩
    by_cases h : dt = Dtype.numeric
    · subst h
      simp only [if_pos rfl, Option.some.injEq, Prod.mk.injEq] at hfa
      obtain ⟨rfl, rfl⟩ := hfa
      exact ha
    · simp only [h, if_false] at hfa
      exact absurd hfa (by simp [h])
  · intro h
    exact ⟨(j, (nm, Dtype.numeric)), h, by simp⟩

lemma numericCols_idx_lt {header : List (String × Dtype)} {p : ℕ × String}
    (h : p ∈ numericCols header) : p.1 < header.length := by
  obtain ⟨j, nm⟩ := p
  have := withIdx_mem_lt (numericCols_mem_iff.1 h)
  simpa using this

lemma numericCols_header_getElem {header : List (String × Dtype)} {p : ℕ × String}
    (h : p ∈ numericCols header) : header[p.1]? = some (p.2, Dtype.numeric) := by
  obtain ⟨j, nm⟩ := p
  have := withIdx_mem_getElem (numericCols_mem_iff.1 h)
  simpa using this

lemma header_getElem_numericCols {header : List (String × Dtype)} {j : ℕ} {nm : String}
    (h : header[j]? = some (nm, Dtype.numeric)) : (j, nm) ∈ numericCols header := by
  have := getElem_mem_withIdx (n := 0) h
  simp only [Nat.zero_add] at this
  exact numericCols_mem_iff.2 this

lemma getD_set_ne (l : List α) {i j : ℕ} (v d : α) (h : i ≠ j) :
    (l.set i v).getD j d = l.getD j d := by
  rw [List.getD_eq_getElem?_getD, List.getD_eq_getElem?_getD, List.getElem?_set_ne h]

lemma getD_set_self (l : List α) {i : ℕ} (v d : α) (h : i < l.length) :
    (l.set i v).getD i d = v := by
  rw [List.getD_eq_getElem?_getD, List.getElem?_set_self h]
  rfl

lemma getCol_length (rows : List (List Cell)) (i : ℕ) : (getCol rows i).length = rows.length := by
  simp [getCol]

lemma getCol_mapCol_ne (rows : List (List Cell)) {i j : ℕ} (f : Cell → Cell) (h : j ≠ i) :
    getCol (mapCol rows i f) j = getCol rows j := by
  unfold getCol mapCol
  rw [List.map_map]
  apply List.map_congr_left
  intro r _
  exact getD_set_ne r _ _ (fun he => h he.symm)

lemma getCol_mapCol_self (rows : List (List Cell)) {i : ℕ} (f : Cell → Cell)
    (h : ∀ r ∈ rows, i < r.length) :
    getCol (mapCol rows i f) i = (getCol rows i).map f := by
  unfold getCol mapCol
  rw [List.map_map, List.map_map]
  apply List.map_congr_left
  intro r hr
  exact getD_set_self r _ _ (h r hr)

lemma mapCol_wf {df : DataFrame} {i : ℕ} {f : Cell → Cell} (h : df.Wf) :
    DataFrame.Wf ⟨df.header, mapCol df.rows i f⟩ := by
  intro r hr
  simp only [mapCol, List.mem_map] at hr
  rcases hr with ⟨r0, hr0, rfl⟩
  simpa using h r0 hr0

lemma imputeLoop_cons_pos {i : ℕ} {name : String} {rest : List (ℕ × String)}
    {df : DataFrame} {log : List String} (h : 0 < naCount (getCol df.rows i)) :
    imputeLoop ((i, name) :: rest) df log =
      imputeLoop rest ⟨df.header, mapCol df.rows i (fillCell (colMean (getCol df.rows i)))⟩
        (log ++ [imputeEntry name]) := by
  simp [imputeLoop, h]

lemma imputeLoop_cons_neg {i : ℕ} {name : String} {rest : List (ℕ × String)}
    {df : DataFrame} {log : List String} (h : ¬ 0 < naCount (getCol df.rows i)) :
    imputeLoop ((i, name) :: rest) df log = imputeLoop rest df log := by
  simp [imputeLoop, h]

lemma imputeLoop_header : ∀ (todo : List (ℕ × String)) (df : DataFrame) (log : List String),
    (imputeLoop todo df log).1.header = df.header := by
  intro todo
  induction todo with
  | nil => intro df log; rfl
  | cons hd rest ih =>
    obtain ⟨i, name⟩ := hd
    intro df log
    by_cases hpos : 0 < naCount (getCol df.rows i)
    · rw [imputeLoop_cons_pos hpos, ih]
    · rw [imputeLoop_cons_neg hpos, ih]

lemma imputeLoop_log : ∀ (todo : List (ℕ × String)) (df : DataFrame) (log : List String),
    (todo.map Prod.fst).Nodup →
    (imputeLoop todo df log).2 =
      log ++ (todo.filter (fun p => decide (0 < naCount (getCol df.rows p.1)))).map
        (fun p => imputeEntry p.2) := by
  intro todo
  induction todo with
  | nil => intro df log _; simp [imputeLoop]
  | cons hd rest ih =>
    obtain ⟨i, name⟩ := hd
    intro df log hnd
    have hndr : (rest.map Prod.fst).Nodup := (List.nodup_cons.1 (by simpa using hnd)).2
    have hni : i ∉ rest.map Prod.fst := (List.nodup_cons.1 (by simpa using hnd)).1
    by_cases hpos : 0 < naCount (getCol df.rows i)
    · rw [imputeLoop_cons_pos hpos, ih _ _ hndr]
      have hcong : ∀ p ∈ rest,
          (decide (0 < naCount (getCol (mapCol df.rows i (fillCell (colMean (getCol df.rows i)))) p.1)))
            = decide (0 < naCount (getCol df.rows p.1)) := by
        intro p hp
        have hne : p.1 ≠ i := by
          intro he
          exact hni (he ▸ List.mem_map_of_mem Prod.fst hp)
        rw [getCol_mapCol_ne _ _ hne]
      rw [List.filter_congr hcong]
      rw [List.filter_cons, if_pos (by simpa using hpos)]
      simp [List.append_assoc]
    · rw [imputeLoop_cons_neg hpos, ih _ _ hndr]
      rw [List.filter_cons, if_neg (by simpa using hpos)]

lemma imputeLoop_getCol :
    ∀ (todo : List (ℕ × String)) (df : DataFrame) (log : List String) (j : ℕ),
    (todo.map Prod.fst).Nodup → df.Wf → (∀ p ∈ todo, p.1 < df.header.length) →
    getCol (imputeLoop todo df log).1.rows j =
      if (∃ p ∈ todo, p.1 = j) ∧ 0 < naCount (getCol df.rows j)
      then (getCol df.rows j).map (fillCell (colMean (getCol df.rows j)))
      else getCol df.rows j := by
  intro todo
  induction todo with
  | nil =>
    intro df log j _ _ _
    simp [imputeLoop]
  | cons hd rest ih =>
    obtain ⟨i, name⟩ := hd
    intro df log j hnd hwf hbd
    have hndr : (rest.map Prod.fst).Nodup := (List.nodup_cons.1 (by simpa using hnd)).2
    have hni : i ∉ rest.map Prod.fst := (List.nodup_cons.1 (by simpa using hnd)).1
    have hbdi : i < df.header.length := hbd (i, name) (List.mem_cons_self _ _)
    have hbdr : ∀ p ∈ rest, p.1 < df.header.length :=
      fun p hp => hbd p (List.mem_cons_of_mem _ hp)
    by_cases hpos : 0 < naCount (getCol df.rows i)
    · rw [imputeLoop_cons_pos hpos]
      have hwf1 : DataFrame.Wf ⟨df.header, mapCol df.rows i (fillCell (colMean (getCol df.rows i)))⟩ :=
        mapCol_wf hwf
      have hcols : ∀ k, k ≠ i →
          getCol (mapCol df.rows i (fillCell (colMean (getCol df.rows i)))) k = getCol df.rows k :=
        fun k hk => getCol_mapCol_ne _ _ hk
      have hself : getCol (mapCol df.rows i (fillCell (colMean (getCol df.rows i)))) i =
          (getCol df.rows i).map (fillCell (colMean (getCol df.rows i))) :=
        getCol_mapCol_self _ _ (fun r hr => by rw [hwf r hr]; exact hbdi)
      rw [ih _ _ j hndr hwf1 (by simpa using hbdr)]
      by_cases hji : j = i
      · subst hji
        have hnex : ¬ ∃ p ∈ rest, p.1 = j := by
          rintro ⟨p, hp, hpj⟩
          exact hni (hpj ▸ List.mem_map_of_mem Prod.fst hp)
        rw [if_neg (by
          rintro ⟨hex, _⟩
          exact hnex hex)]
        rw [hself]
        rw [if_pos ⟨⟨(j, name), List.mem_cons_self _ _, rfl⟩, hpos⟩]
      · rw [hcols j hji]
        have hiff : (∃ p ∈ rest, p.1 = j) ↔ (∃ p ∈ (i, name) :: rest, p.1 = j) := by
          constructor
          · rintro ⟨p, hp, hpj⟩
            exact ⟨p, List.mem_cons_of_mem _ hp, hpj⟩
          · rintro ⟨p, hp, hpj⟩
            rcases List.mem_cons.1 hp with rfl | hp2
            · exact absurd hpj.symm hji
            · exact ⟨p, hp2, hpj⟩
        by_cases hc : (∃ p ∈ (i, name) :: rest, p.1 = j) ∧ 0 < naCount (getCol df.rows j)
        · rw [if_pos ⟨hiff.2 hc.1, hc.2⟩, if_pos hc]
        · rw [if_neg (by
            rintro ⟨hex, hcnt⟩
            exact hc ⟨hiff.1 hex, hcnt⟩), if_neg hc]
    · rw [imputeLoop_cons_neg hpos]
      rw [ih _ _ j hndr hwf hbdr]
      by_cases hji : j = i
      · subst hji
        rw [if_neg (fun h => hpos h.2), if_neg (fun h => hpos h.2)]
      · have hiff : (∃ p ∈ rest, p.1 = j) ↔ (∃ p ∈ (i, name) :: rest, p.1 = j) := by
          constructor
          · rintro ⟨p, hp, hpj⟩
            exact ⟨p, List.mem_cons_of_mem _ hp, hpj⟩
          · rintro ⟨p, hp, hpj⟩
            rcases List.mem_cons.1 hp with rfl | hp2
            · exact absurd hpj.symm hji
            · exact ⟨p, hp2, hpj⟩
        by_cases hc : (∃ p ∈ (i, name) :: rest, p.1 = j) ∧ 0 < naCount (getCol df.rows j)
        · rw [if_pos ⟨hiff.2 hc.1, hc.2⟩, if_pos hc]
        · rw [if_neg (by
            rintro ⟨hex, hcnt⟩
            exact hc ⟨hiff.1 hex, hcnt⟩), if_neg hc]

lemma impute_header (df : DataFrame) (log : List String) :
    (impute_missing_values df log).1.header = df.header :=
  imputeLoop_header _ df log

lemma impute_log (df : DataFrame) (log : List String) :
    (impute_missing_values df log).2 = log ++ (affectedCols df).map (fun p => imputeEntry p.2) :=
  imputeLoop_log _ df log (numericCols_fst_nodup df.header)

lemma impute_getCol (df : DataFrame) (log : List String) (hwf : df.Wf) (j : ℕ) :
    getCol (impute_missing_values df log).1.rows j =
      if (∃ p ∈ numericCols df.header, p.1 = j) ∧ 0 < naCount (getCol df.rows j)
      then (getCol df.rows j).map (fillCell (colMean (getCol df.rows j)))
      else getCol df.rows j :=
  imputeLoop_getCol _ df log j (numericCols_fst_nodup df.header) hwf
    (fun p hp => numericCols_idx_lt hp)

lemma impute_col_filled {df : DataFrame} {log : List String} {j : ℕ} {nm : String}
    (hwf : df.Wf) (h : df.header[j]? = some (nm, Dtype.numeric))
    (hcnt : 0 < naCount (getCol df.rows j)) :
    getCol (impute_missing_values df log).1.rows j =
      (getCol df.rows j).map (fillCell (colMean (getCol df.rows j))) := by
  rw [impute_getCol df log hwf j,
    if_pos ⟨⟨(j, nm), header_getElem_numericCols h, rfl⟩, hcnt⟩]

lemma impute_col_untouched {df : DataFrame} {log : List String} {j : ℕ}
    (hwf : df.Wf)
    (h : ¬ ((∃ nm, df.header[j]? = some (nm, Dtype.numeric)) ∧ 0 < naCount (getCol df.rows j))) :
    getCol (impute_missing_values df log).1.rows j = getCol df.rows j := by
  rw [impute_getCol df log hwf j, if_neg]
  rintro ⟨⟨p, hp, hpj⟩, hcnt⟩
  subst hpj
  exact h ⟨⟨p.2, numericCols_header_getElem hp⟩, hcnt⟩

lemma fillCell_some_ne_na (m : ℚ) (c : Cell) : fillCell (some m) c ≠ Cell.na := by
  unfold fillCell
  by_cases h : c = Cell.na
  · simp [h]
  · simp [h]

lemma fillCell_none (c : Cell) : fillCell none c = c := rfl

lemma map_fillCell_none (col : List Cell) : col.map (fillCell none) = col := by
  induction col with
  | nil => rfl
  | cons c cs ih => simp [List.map_cons, ih, fillCell_none]

lemma naCount_map_fill_some (col : List Cell) (m : ℚ) :
    naCount (col.map (fillCell (some m))) = 0 := by
  unfold naCount
  rw [List.count_eq_zero]
  intro hmem
  rcases List.mem_map.1 hmem with ⟨c, _, hc⟩
  exact fillCell_some_ne_na m c hc

lemma colMean_isSome_of_num {col : List Cell} (h : ∃ c ∈ col, ∃ q, c = Cell.num q) :
    ∃ m, colMean col = some m := by
  rcases h with ⟨c, hc, q, rfl⟩
  unfold colMean
  have hmem : q ∈ col.filterMap cellNum? :=
    List.mem_filterMap.2 ⟨Cell.num q, hc, rfl⟩
  have hne : (col.filterMap cellNum?).length ≠ 0 := by
    intro h0
    rw [List.length_eq_zero] at h0
    rw [h0] at hmem
    cases hmem
  rw [if_neg hne]
  exact ⟨_, rfl⟩

lemma colMean_none_of_all_na {col : List Cell} (h : ∀ c ∈ col, c = Cell.na) :
    colMean col = none := by
  unfold colMean
  have hnil : col.filterMap cellNum? = [] := by
    rw [List.filterMap_eq_nil_iff]
    intro c hc
    rw [h c hc]
    rfl
  rw [hnil]
  rfl

lemma naCount_eq_length_of_all_na {col : List Cell} (h : ∀ c ∈ col, c = Cell.na) :
    naCount col = col.length := by
  unfold naCount
  exact List.count_eq_length.2 (fun b hb => (h b hb).symm)

lemma imputeLoop_wf : ∀ (todo : List (ℕ × String)) (df : DataFrame) (log : List String),
    df.Wf → (imputeLoop todo df log).1.Wf := by
  intro todo
  induction todo with
  | nil => intro df log h; exact h
  | cons hd rest ih =>
    obtain ⟨i, name⟩ := hd
    intro df log hwf
    by_cases hpos : 0 < naCount (getCol df.rows i)
    · rw [imputeLoop_cons_pos hpos]
      exact ih _ _ (mapCol_wf hwf)
    · rw [imputeLoop_cons_neg hpos]
      exact ih _ _ hwf

lemma impute_wf {df : DataFrame} (log : List String) (hwf : df.Wf) :
    (impute_missing_values df log).1.Wf :=
  imputeLoop_wf _ df log hwf

lemma dedupAux_not_mem_seen :
    ∀ (seen rs : List (List Cell)) (x : List Cell), x ∈ dedupAux seen rs → x ∉ seen := by
  intro seen rs
  induction rs generalizing seen with
  | nil => intro x hx; simp [dedupAux] at hx
  | cons r rs ih =>
    intro x hx
    unfold dedupAux at hx
    by_cases hr : r ∈ seen
    · rw [if_pos hr] at hx
      exact ih seen x hx
    · rw [if_neg hr] at hx
      rcases List.mem_cons.1 hx with rfl | hx2
      · exact hr
      · intro hseen
        exact ih (r :: seen) _ hx2 (List.mem_cons_of_mem _ hseen)

lemma dedupAux_nodup : ∀ (seen rs : List (List Cell)), (dedupAux seen rs).Nodup := by
  intro seen rs
  induction rs generalizing seen with
  | nil => simp [dedupAux]
  | cons r rs ih =>
    unfold dedupAux
    by_cases hr : r ∈ seen
    · rw [if_pos hr]
      exact ih seen
    · rw [if_neg hr]
      refine List.nodup_cons.2 ⟨?_, ih (r :: seen)⟩
      intro hmem
      exact dedupAux_not_mem_seen _ _ _ hmem (List.mem_cons_self _ _)

lemma dedupAux_eq_self :
    ∀ (seen rs : List (List Cell)), rs.Nodup → (∀ x ∈ rs, x ∉ seen) → dedupAux seen rs = rs := by
  intro seen rs
  induction rs generalizing seen with
  | nil => intro _ _; rfl
  | cons r rs ih =>
    intro hnd hdisj
    unfold dedupAux
    rw [if_neg (hdisj r (List.mem_cons_self _ _))]
    congr 1
    refine ih (r :: seen) (List.nodup_cons.1 hnd).2 ?_
    intro x hx hmem
    rcases List.mem_cons.1 hmem with rfl | hseen
    · exact (List.nodup_cons.1 hnd).1 hx
    · exact hdisj x (List.mem_cons_of_mem _ hx) hseen

lemma dedup_idem (rows : List (List Cell)) : dedup (dedup rows) = dedup rows := by
  unfold dedup
  exact dedupAux_eq_self [] _ (dedupAux_nodup [] rows) (by simp)

lemma dedupAux_sublist : ∀ (seen rs : List (List Cell)), (dedupAux seen rs).Sublist rs := by
  intro seen rs
  induction rs generalizing seen with
  | nil => exact List.Sublist.refl []
  | cons r rs ih =>
    unfold dedupAux
    by_cases hr : r ∈ seen
    · rw [if_pos hr]
      exact List.Sublist.cons r (ih seen)
    · rw [if_neg hr]
      exact List.Sublist.cons₂ r (ih (r :: seen))

lemma dedupAux_eq_specKeep :
    ∀ (rs seen pre : List (List Cell)), (∀ x, x ∈ seen ↔ x ∈ pre) →
      dedupAux seen rs = specKeep pre rs := by
  intro rs
  induction rs with
  | nil => intro seen pre _; rfl
  | cons r rs ih =>
    intro seen pre hiff
    unfold dedupAux specKeep
    by_cases hr : r ∈ seen
    · rw [if_pos hr, if_pos ((hiff r).1 hr)]
      refine ih seen (pre ++ [r]) ?_
      intro x
      constructor
      · intro hx
        exact List.mem_append_left _ ((hiff x).1 hx)
      · intro hx
        rcases List.mem_append.1 hx with hx1 | hx2
        · exact (hiff x).2 hx1
        · rw [List.mem_singleton.1 hx2]
          exact hr
    · rw [if_neg hr, if_neg (fun hp => hr ((hiff r).2 hp))]
      congr 1
      refine ih (r :: seen) (pre ++ [r]) ?_
      intro x
      constructor
      · intro hx
        rcases List.mem_cons.1 hx with rfl | hx2
        · exact List.mem_append_right _ (List.mem_singleton.2 rfl)
        · exact List.mem_append_left _ ((hiff x).1 hx2)
      · intro hx
        rcases List.mem_append.1 hx with hx1 | hx2
        · exact List.mem_cons_of_mem _ ((hiff x).2 hx1)
        · rw [List.mem_singleton.1 hx2]
          exact List.mem_cons_self _ _

lemma dedup_eq_specKeep (rows : List (List Cell)) : dedup rows = specKeep [] rows :=
  dedupAux_eq_specKeep rows [] [] (by simp)

lemma drop_duplicates_result (df : DataFrame) (log : List String) :
    drop_duplicates df log =
      (⟨df.header, dedup df.rows⟩,
       log ++ [dropEntry (shapeStr df) (shapeStr ⟨df.header, dedup df.rows⟩)]) := rfl

lemma isPre_self_append : ∀ (l t : List Char), isPre l (l ++ t) = true := by
  intro l
  induction l with
  | nil => intro t; rfl
  | cons a as ih =>
    intro t
    simp [isPre, ih t]

lemma listContains_nil : ∀ (h : List Char), listContains [] h = true := by
  intro h
  cases h with
  | nil => rfl
  | cons c cs => simp [listContains, isPre]

lemma listContains_here : ∀ (b c : List Char), listContains b (b ++ c) = true := by
  intro b c
  cases b with
  | nil => exact listContains_nil _
  | cons x xs =>
    show listContains (x :: xs) (x :: (xs ++ c)) = true
    unfold listContains
    rw [show isPre (x :: xs) (x :: (xs ++ c)) = true from isPre_self_append (x :: xs) c]
    rfl

lemma listContains_append : ∀ (a b c : List Char), listContains b (a ++ (b ++ c)) = true := by
  intro a
  induction a with
  | nil => intro b c; exact listContains_here b c
  | cons x xs ih =>
    intro b c
    show listContains b (x :: (xs ++ (b ++ c))) = true
    unfold listContains
    rw [ih b c]
    exact Bool.or_true _

lemma isPre_iff : ∀ (a b : List Char), isPre a b = true ↔ ∃ t, a ++ t = b := by
  intro a
  induction a with
  | nil => intro b; simp [isPre]
  | cons x xs ih =>
    intro b
    cases b with
    | nil =>
      simp [isPre]
    | cons y ys =>
      simp only [isPre, Bool.and_eq_true, beq_iff_eq]
      rw [ih ys]
      constructor
      · rintro ⟨rfl, t, rfl⟩
        exact ⟨t, rfl⟩
      · rintro ⟨t, ht⟩
        injection ht with h1 h2
        exact ⟨h1, t, h2⟩

lemma listContains_iff : ∀ (h n : List Char),
    listContains n h = true ↔ ∃ s t, s ++ (n ++ t) = h := by
  intro h
  induction h with
  | nil =>
    intro n
    show isPre n [] = true ↔ _
    rw [isPre_iff]
    constructor
    · rintro ⟨t, ht⟩
      exact ⟨[], t, ht⟩
    · rintro ⟨s, t, hst⟩
      rcases List.append_eq_nil.1 hst with ⟨rfl, h2⟩
      exact ⟨t, h2⟩
  | cons c cs ih =>
    intro n
    show (isPre n (c :: cs) || listContains n cs) = true ↔ _
    rw [Bool.or_eq_true, isPre_iff, ih]
    constructor
    · rintro (⟨t, ht⟩ | ⟨s, t, hst⟩)
      · exact ⟨[], t, ht⟩
      · exact ⟨c :: s, t, by rw [List.cons_append, hst]⟩
    · rintro ⟨s, t, hst⟩
      cases s with
      | nil => exact Or.inl ⟨t, hst⟩
      | cons y ys =>
        rw [List.cons_append] at hst
        injection hst with h1 h2
        exact Or.inr ⟨ys, t, h2⟩

lemma strContains_middle (sa sb sc : String) : strContains (sa ++ sb ++ sc) sb = true := by
  unfold strContains
  rw [String.data_append, String.data_append, List.append_assoc]
  exact listContains_append _ _ _

lemma rat_floor_eq_floor (q : ℚ) : q.floor = ⌊q⌋ := rfl

lemma rhe_int (z : ℤ) : rhe (z : ℚ) = z := by
  unfold rhe
  rw [rat_floor_eq_floor, Int.floor_intCast]
  norm_num

lemma fmt1_fifty : fmt1 50 = "50.0" := by
  unfold fmt1
  rw [show (50 : ℚ) * 10 = ((500 : ℤ) : ℚ) by norm_num, rhe_int]
  decide

lemma taskNotes_decision_tree : taskNotes "Decision Tree" = [decisionTreeMsg] := by
  unfold taskNotes
  rw [if_pos rfl]

lemma taskNotes_self_supervised : taskNotes "Self-supervised Learning" = [selfSupervisedMsg] := by
  unfold taskNotes
  rw [if_neg (by decide), if_pos rfl]

lemma taskNotes_other : taskNotes "Other" = [] := by
  unfold taskNotes
  rw [if_neg (by decide), if_neg (by decide)]

lemma check_parts (df : DataFrame) (ml_task : String) :
    check_ml_readiness df ml_task = check_ml_readiness df "Other" ++ taskNotes ml_task := by
  unfold check_ml_readiness
  rw [taskNotes_other]
  simp [List.append_assoc]

lemma check_mem_missing {df : DataFrame} (ml_task : String) {j : ℕ} {nd : String × Dtype}
    (h : df.header[j]? = some nd)
    (hpct : 0 < ((naCount (getCol df.rows j) : ℚ) / (df.rows.length : ℚ))) :
    missingMsg nd.1 ((naCount (getCol df.rows j) : ℚ) / (df.rows.length : ℚ)) ∈
      check_ml_readiness df ml_task := by
  unfold check_ml_readiness
  apply List.mem_append_left
  apply List.mem_append_left
  refine List.mem_filterMap.2 ⟨(j, nd), ?_, ?_⟩
  · have := getElem_mem_withIdx (n := 0) h
    simpa using this
  · simp only
    rw [if_pos hpct]

lemma check_mem_encoding {df : DataFrame} (ml_task : String) {nm : String}
    (h : (nm, Dtype.object) ∈ df.header) :
    encodingMsg nm ∈ check_ml_readiness df ml_task := by
  unfold check_ml_readiness
  apply List.mem_append_left
  apply List.mem_append_right
  exact List.mem_filterMap.2 ⟨(nm, Dtype.object), h, rfl⟩

lemma check_mem_datetime {df : DataFrame} (ml_task : String) {nm : String}
    (h : (nm, Dtype.datetime) ∈ df.header) :
    datetimeMsg nm ∈ check_ml_readiness df ml_task := by
  unfold check_ml_readiness
  apply List.mem_append_left
  apply List.mem_append_right
  exact List.mem_filterMap.2 ⟨(nm, Dtype.datetime), h, rfl⟩

lemma pct_pos {c n : ℕ} (hc : 0 < c) (hn : 0 < n) : 0 < ((c : ℚ) / (n : ℚ)) :=
  div_pos (by exact_mod_cast hc) (by exact_mod_cast hn)

lemma pct_eq_half {c n : ℕ} (h : 2 * c = n) (hn : 0 < n) :
    ((c : ℚ) / (n : ℚ)) = 1 / 2 := by
  have hc : 0 < c := by omega
  have hn' : (n : ℚ) = 2 * (c : ℚ) := by exact_mod_cast h.symm
  have hc0 : (c : ℚ) ≠ 0 := ne_of_gt (by exact_mod_cast hc)
  rw [hn']
  field_simp
  ring

lemma fmt1_half : fmt1 (1 / 2 * 100) = "50.0" := by
  rw [show (1 / 2 * 100 : ℚ) = 50 by norm_num]
  exact fmt1_fifty

lemma listContains_ext_left :
    ∀ (x h b : List Char), listContains b h = true → listContains b (x ++ h) = true := by
  intro x
  induction x with
  | nil => intro h b hb; exact hb
  | cons y ys ih =>
    intro h b hb
    show (isPre b (y :: (ys ++ h)) || listContains b (ys ++ h)) = true
    rw [ih h b hb]
    exact Bool.or_true _

lemma missingMsg_contains_fifty (nm : String) :
    strContains (missingMsg nm (1 / 2)) "50.0%" = true := by
  unfold missingMsg
  rw [fmt1_half]
  unfold strContains
  simp only [String.data_append, List.append_assoc]
  rw [show ("50.0".data ++ "% missing values.".data : List Char) =
      "50.0%".data ++ " missing values.".data by decide]
  apply listContains_ext_left
  apply listContains_ext_left
  apply listContains_ext_left
  exact listContains_here _ _

lemma missingMsg_contains_name (nm : String) (pct : ℚ) :
    strContains (missingMsg nm pct) nm = true := by
  unfold missingMsg strContains
  simp only [String.data_append, List.append_assoc]
  apply listContains_ext_left
  exact listContains_here _ _

lemma imputeEntry_contains_name (nm : String) :
    strContains (imputeEntry nm) nm = true := by
  unfold imputeEntry strContains
  simp only [String.data_append, List.append_assoc]
  apply listContains_ext_left
  exact listContains_here _ _

lemma containsDateCi_iff (c : String) :
    containsDateCi c = true ↔ ∃ s t, s ++ ("date".data ++ t) = c.data.map Char.toLower := by
  unfold containsDateCi
  exact listContains_iff _ _

lemma getD_map_withIdx (g : ℕ → Cell → Cell) :
    ∀ (n : ℕ) (r : List Cell) (j : ℕ), j < r.length →
      ((withIdx n r).map (fun p => g p.1 p.2)).getD j Cell.na = g (n + j) (r.getD j Cell.na) := by
  intro n r
  induction r generalizing n with
  | nil => intro j hj; cases hj
  | cons a as ih =>
    intro j hj
    cases j with
    | zero => simp [withIdx]
    | succ j =>
      have hj' : j < as.length := by simpa using hj
      show ((withIdx (n + 1) as).map (fun p => g p.1 p.2)).getD j Cell.na = _
      rw [ih (n + 1) j hj']
      have : n + 1 + j = n + (j + 1) := by omega
      rw [this]
      rfl

lemma shouldCoerce_object {header : List (String × Dtype)} {dateColumns : List String}
    {j : ℕ} {nm : String} (h : header[j]? = some (nm, Dtype.object))
    (hnm : nm ∉ dateColumns) : shouldCoerce header dateColumns j = true := by
  unfold shouldCoerce
  rw [List.getD_eq_getElem?_getD, h]
  show decide (nm ∉ dateColumns) = true
  exact decide_eq_true hnm

lemma getCol_coerceObjects_object {dateColumns : List String} {df : DataFrame} {j : ℕ}
    {nm : String} (hwf : df.Wf) (h : df.header[j]? = some (nm, Dtype.object))
    (hnm : nm ∉ dateColumns) :
    getCol (coerceObjects dateColumns df).rows j =
      (getCol df.rows j).map (fun c => Cell.str (pyStr c)) := by
  have hj : j < df.header.length := by
    rcases List.getElem?_eq_some.1 h with ⟨hlt, _⟩
    exact hlt
  have hsc : shouldCoerce df.header dateColumns j = true := shouldCoerce_object h hnm
  unfold coerceObjects getCol coerceRow
  rw [List.map_map, List.map_map]
  apply List.map_congr_left
  intro r hr
  have hjr : j < r.length := by rw [hwf r hr]; exact hj
  show ((withIdx 0 r).map (fun p =>
      if shouldCoerce df.header dateColumns p.1 then Cell.str (pyStr p.2) else p.2)).getD j Cell.na
    = Cell.str (pyStr (r.getD j Cell.na))
  rw [getD_map_withIdx (fun i c =>
    if shouldCoerce df.header dateColumns i then Cell.str (pyStr c) else c) 0 r j hjr]
  simp only [Nat.zero_add]
  rw [if_pos hsc]

lemma scriptLines_entry (ts : String) (log : List String) (i : ℕ) (h : i < log.length) :
    (scriptLines ts log)[7 + i]? = some ("    " ++ log.getD i "") := by
  unfold scriptLines
  rw [List.getElem?_append, if_pos (by
    simp only [List.length_append, List.length_map, List.length_cons, List.length_nil]
    omega)]
  rw [List.getElem?_append, if_neg (by
    simp only [List.length_cons, List.length_nil]
    omega)]
  simp only [List.length_cons, List.length_nil]
  rw [show 7 + i - (0 + 1 + 1 + 1 + 1 + 1 + 1 + 1) = i from by omega]
  rw [List.getElem?_map]
  rw [List.getElem?_eq_getElem h]
  rw [List.getD_eq_getElem?_getD, List.getElem?_eq_getElem h]
  rfl

lemma scriptLines_last (ts : String) (log : List String) :
    (scriptLines ts log).getLast? = some "    return df" := by
  unfold scriptLines
  exact List.getLast?_concat _

lemma transformBody_nil (ts : String) :
    transformBody ts [] = ["    # Transformation steps applied", "    return df"] := rfl

lemma runBody_transformBody_nil (ts : String) (df : α) :
    runBody df (transformBody ts []) = some df := by
  rw [transformBody_nil]
  unfold runBody
  rw [if_neg (by decide), if_pos (by decide)]
  unfold runBody
  rw [if_pos rfl]

lemma runExport_fst (toCsv : DataFrame → String)
    (renderReport : DataFrame → List String → String)
    (write : String → String → Option String) (ts : String)
    (a : ExportAction) (st : AppState) :
    (runExport toCsv renderReport write ts a st).1 = st := by
  unfold runExport
  cases hw : write (exportArtifact toCsv renderReport ts a st).1
      (exportArtifact toCsv renderReport ts a st).2 with
  | none => simp [hw]
  | some e => simp [hw]

lemma impute_all_na_step {df : DataFrame} (log : List String) {j : ℕ} {nm : String}
    (hwf : df.Wf) (hh : df.header[j]? = some (nm, Dtype.numeric))
    (hne : getCol df.rows j ≠ []) (hall : ∀ c ∈ getCol df.rows j, c = Cell.na) :
    getCol (impute_missing_values df log).1.rows j = getCol df.rows j ∧
    imputeEntry nm ∈ (impute_missing_values df log).2 ∧
    (impute_missing_values df log).2.length ≥ log.length + 1 := by
  have hcnt : 0 < naCount (getCol df.rows j) := by
    rw [naCount_eq_length_of_all_na hall]
    exact List.length_pos.2 hne
  have hmem : (j, nm) ∈ affectedCols df := by
    unfold affectedCols
    exact List.mem_filter.2 ⟨header_getElem_numericCols hh, decide_eq_true hcnt⟩
  refine ⟨?_, ?_, ?_⟩
  · rw [impute_col_filled hwf hh hcnt, colMean_none_of_all_na hall, map_fillCell_none]
  · rw [impute_log]
    apply List.mem_append_right
    exact List.mem_map.2 ⟨(j, nm), hmem, rfl⟩
  · rw [impute_log, List.length_append]
    have : 0 < ((affectedCols df).map (fun p => imputeEntry p.2)).length := by
      rw [List.length_map]
      exact List.length_pos.2 (List.ne_nil_of_mem hmem)
    omega

lemma imputeIter_all_na :
    ∀ (k : ℕ) (df : DataFrame) (log : List String) (j : ℕ) (nm : String),
      df.Wf → df.header[j]? = some (nm, Dtype.numeric) →
      getCol df.rows j ≠ [] → (∀ c ∈ getCol df.rows j, c = Cell.na) →
      (imputeIter k (df, log)).2.length ≥ log.length + k := by
  intro k
  induction k with
  | zero =>
    intro df log j nm _ _ _ _
    simp [imputeIter]
  | succ k ih =>
    intro df log j nm hwf hh hne hall
    have hstep := impute_all_na_step log hwf hh hne hall
    have hwf' : (impute_missing_values df log).1.Wf := impute_wf log hwf
    have hh' : (impute_missing_values df log).1.header[j]? = some (nm, Dtype.numeric) := by
      rw [impute_header]
      exact hh
    have hcol : getCol (impute_missing_values df log).1.rows j = getCol df.rows j := hstep.1
    have hne' : getCol (impute_missing_values df log).1.rows j ≠ [] := by
      rw [hcol]; exact hne
    have hall' : ∀ c ∈ getCol (impute_missing_values df log).1.rows j, c = Cell.na := by
      rw [hcol]; exact hall
    have hrec := ih (impute_missing_values df log).1 (impute_missing_values df log).2
      j nm hwf' hh' hne' hall'
    have hgrow := hstep.2.2
    show (imputeIter k (impute_missing_values df log)).2.length ≥ log.length + (k + 1)
    calc (imputeIter k (impute_missing_values df log)).2.length
        = (imputeIter k ((impute_missing_values df log).1,
            (impute_missing_values df log).2)).2.length := rfl
      _ ≥ (impute_missing_values df log).2.length + k := hrec
      _ ≥ (log.length + 1) + k := by omega
      _ = log.length + (k + 1) := by omega

lemma runExport_snd_ok (toCsv : DataFrame → String)
    (renderReport : DataFrame → List String → String)
    (write : String → String → Option String) (ts : String)
    (a : ExportAction) (st : AppState)
    (hw : write (exportArtifact toCsv renderReport ts a st).1
      (exportArtifact toCsv renderReport ts a st).2 = none) :
    (runExport toCsv renderReport write ts a st).2 =
      exportSuccessMsg a (exportArtifact toCsv renderReport ts a st).1 := by
  unfold runExport
  simp [hw]

lemma runExport_snd_err (toCsv : DataFrame → String)
    (renderReport : DataFrame → List String → String)
    (write : String → String → Option String) (ts : String)
    (a : ExportAction) (st : AppState) (e : String)
    (hw : write (exportArtifact toCsv renderReport ts a st).1
      (exportArtifact toCsv renderReport ts a st).2 = some e) :
    (runExport toCsv renderReport write ts a st).2 = "Error reading the CSV file: " ++ e := by
  unfold runExport
  simp [hw]

/-- C1: the claim says that with no credential configured both advisory
operations return a fixed explanatory string and do not raise.  The code
contradicts this: its first statement is `os.get_env("OPEN_AI_KEY")`,
and Python's `os` module has no attribute `get_env` (the library
function is `os.getenv`), so for every environment — credential or not —
and every service behavior, both operations raise `AttributeError`
before the credential check is ever reached.  This theorem evaluates the
embedded code at every input, exhibiting the unconditional raise. -/
theorem c1_advisory_raises_attribute_error
    (env : String → Option String) (svc : String → Except String String)
    (data_summary ml_task : String) :
    get_cleaning_suggestions env svc data_summary ml_task =
      PyOutcome.exn getEnvAttributeError ∧
    get_additional_checks env svc data_summary ml_task =
      PyOutcome.exn getEnvAttributeError := by
  constructor
  · unfold get_cleaning_suggestions
    rw [if_neg (by decide)]
  · unfold get_additional_checks
    rw [if_neg (by decide)]

/-- C2 counterexample: on a dataset whose only numeric column has no
missing value, one call to `impute_missing_values` appends zero log
entries, not exactly one, refuting "appends exactly one entry ...
regardless of whether the action changed any data". -/
theorem c2_counterexample :
    ¬ ((impute_missing_values dfNoMissing []).2.length = 0 + 1) := by
  decide

/-- C2 (amended): each call to `drop_duplicates` appends exactly one
entry; each call to `impute_missing_values` appends one entry per
numeric column with at least one missing value at call time — possibly
zero or several — and in both cases the existing log is preserved as a
prefix, so entries appear in chronological call order. -/
theorem c2_log_growth (df : DataFrame) (log : List String) :
    (drop_duplicates df log).2 =
      log ++ [dropEntry (shapeStr df) (shapeStr ⟨df.header, dedup df.rows⟩)] ∧
    (impute_missing_values df log).2 =
      log ++ (affectedCols df).map (fun p => imputeEntry p.2) := by
  exact ⟨rfl, impute_log df log⟩

/-- C3: `impute_missing_values` keeps the header; appends exactly one
log entry, naming the column, per numeric column with at least one
missing value; fills each such column by replacing missing entries with
the column's mean over the non-missing values at call time; leaves
columns without missing values untouched; and afterwards no numeric
column that had at least one non-missing value retains a missing
value. -/
theorem c3_impute_spec (df : DataFrame) (log : List String) (hwf : df.Wf) :
    (impute_missing_values df log).1.header = df.header ∧
    (impute_missing_values df log).2 =
      log ++ (affectedCols df).map (fun p => imputeEntry p.2) ∧
    (∀ p ∈ affectedCols df, strContains (imputeEntry p.2) p.2 = true) ∧
    (∀ j nm, df.header[j]? = some (nm, Dtype.numeric) →
      0 < naCount (getCol df.rows j) →
      getCol (impute_missing_values df log).1.rows j =
        (getCol df.rows j).map (fillCell (colMean (getCol df.rows j)))) ∧
    (∀ j, naCount (getCol df.rows j) = 0 →
      getCol (impute_missing_values df log).1.rows j = getCol df.rows j) ∧
    (∀ j nm, df.header[j]? = some (nm, Dtype.numeric) →
      (∀ c ∈ getCol df.rows j, c = Cell.na ∨ ∃ q, c = Cell.num q) →
      (∃ c ∈ getCol df.rows j, c ≠ Cell.na) →
      naCount (getCol (impute_missing_values df log).1.rows j) = 0) := by
  refine ⟨impute_header df log, impute_log df log, ?_, ?_, ?_, ?_⟩
  · intro p _
    exact imputeEntry_contains_name p.2
  · intro j nm hh hcnt
    exact impute_col_filled hwf hh hcnt
  · intro j hcnt
    apply impute_col_untouched hwf
    rintro ⟨_, hpos⟩
    omega
  · intro j nm hh htyped hnonmiss
    rcases hnonmiss with ⟨c, hc, hcna⟩
    have hnum : ∃ q, c = Cell.num q := by
      rcases htyped c hc with h1 | h2
      · exact absurd h1 hcna
      · exact h2
    rcases hnum with ⟨q, rfl⟩
    by_cases hcnt : 0 < naCount (getCol df.rows j)
    · rw [impute_col_filled hwf hh hcnt]
      rcases colMean_isSome_of_num ⟨Cell.num q, hc, q, rfl⟩ with ⟨m, hm⟩
      rw [hm]
      exact naCount_map_fill_some _ m
    · have h0 : naCount (getCol df.rows j) = 0 := by omega
      rw [impute_col_untouched hwf (by rintro ⟨_, hpos⟩; omega)]
      exact h0

/-- Witness for C3 at a concrete dataset: one missing `value` entry
produces exactly one log entry and no missing values remain in that
column. -/
theorem c3_impute_witness :
    DataFrame.Wf dfImputeW ∧
    (impute_missing_values dfImputeW []).2 = [imputeEntry "value"] ∧
    naCount (getCol (impute_missing_values dfImputeW []).1.rows 1) = 0 := by
  have hwf : DataFrame.Wf dfImputeW := by decide
  have h := c3_impute_spec dfImputeW [] hwf
  refine ⟨hwf, ?_, ?_⟩
  · rw [h.2.1]
    decide
  · refine h.2.2.2.2.2 1 "value" (by decide) ?_ ⟨Cell.num 4, by decide, by decide⟩
    intro c hc
    have hcol : getCol dfImputeW.rows 1 = [Cell.na, Cell.num 4] := rfl
    rw [hcol] at hc
    rcases List.mem_cons.1 hc with rfl | hc2
    · exact Or.inl rfl
    · rcases List.mem_singleton.1 hc2 with rfl
      exact Or.inr ⟨4, rfl⟩

/-- C5: applying `drop_duplicates` twice yields the same dataset as
applying it once, and the second call still appends one log entry whose
before and after shapes coincide. -/
theorem c5_drop_duplicates_idempotent (df : DataFrame) (log log2 : List String) :
    (drop_duplicates (drop_duplicates df log).1 log2).1 = (drop_duplicates df log).1 ∧
    (drop_duplicates (drop_duplicates df log).1 log2).2 =
      log2 ++ [dropEntry (shapeStr (drop_duplicates df log).1)
                         (shapeStr (drop_duplicates df log).1)] := by
  have hidem : dedup (dedup df.rows) = dedup df.rows := dedup_idem df.rows
  constructor
  · show (⟨df.header, dedup (dedup df.rows)⟩ : DataFrame) = ⟨df.header, dedup df.rows⟩
    rw [hidem]
  · show log2 ++ [dropEntry (shapeStr ⟨df.header, dedup df.rows⟩)
        (shapeStr ⟨df.header, dedup (dedup df.rows)⟩)] = _
    rw [hidem]
    rfl

/-- C6: `drop_duplicates` keeps exactly the rows that are not exact
duplicates of an earlier row (first occurrence preserved — proved
against an independent rendering of the spec's rule), the kept rows form
a subsequence of the original row order, the header is unchanged, and
one log entry recording the before/after shapes is appended. -/
theorem c6_drop_duplicates_first_occurrence (df : DataFrame) (log : List String) :
    (drop_duplicates df log).1.rows = specKeep [] df.rows ∧
    ((drop_duplicates df log).1.rows).Sublist df.rows ∧
    (drop_duplicates df log).1.header = df.header ∧
    (drop_duplicates df log).2 =
      log ++ [dropEntry (shapeStr df) (shapeStr (drop_duplicates df log).1)] := by
  exact ⟨dedup_eq_specKeep df.rows, dedupAux_sublist [] df.rows, rfl, rfl⟩

/-- C10: on a dataset with an all-missing numeric column the imputation
fills nothing in that column (the mean over zero non-missing values is
NaN) yet still appends a log entry for it, and every further call does
the same, so `k` repetitions grow the log by at least `k` entries. -/
theorem c10_all_missing_column (df : DataFrame) (log : List String) (j : ℕ) (nm : String)
    (hwf : df.Wf) (hh : df.header[j]? = some (nm, Dtype.numeric))
    (hne : getCol df.rows j ≠ []) (hall : ∀ c ∈ getCol df.rows j, c = Cell.na) :
    getCol (impute_missing_values df log).1.rows j = getCol df.rows j ∧
    imputeEntry nm ∈ (impute_missing_values df log).2 ∧
    (impute_missing_values df log).2.length ≥ log.length + 1 ∧
    ∀ k, (imputeIter k (df, log)).2.length ≥ log.length + k := by
  have h := impute_all_na_step log hwf hh hne hall
  exact ⟨h.1, h.2.1, h.2.2, fun k => imputeIter_all_na k df log j nm hwf hh hne hall⟩

/-- Witness for C10 at a concrete all-missing dataset: the column stays
missing, the entry is logged, and five repetitions grow the log to at
least five entries. -/
theorem c10_all_missing_witness :
    getCol (impute_missing_values dfAllNa []).1.rows 0 = getCol dfAllNa.rows 0 ∧
    imputeEntry "value" ∈ (impute_missing_values dfAllNa []).2 ∧
    (imputeIter 5 (dfAllNa, [])).2.length ≥ 5 := by
  have h := c10_all_missing_column dfAllNa [] 0 "value" (by decide) (by decide)
    (by decide) (by decide)
  exact ⟨h.1, h.2.1, by simpa using h.2.2.2 5⟩

/-- C4: `check_ml_readiness` emits, for every column with nonzero
missing fraction, the message naming the column with the percentage to
one decimal; an encoding note for every object column; a
feature-engineering note for every datetime column; the fixed task notes
for "Decision Tree" and "Self-supervised Learning"; no task-specific
note for "Other" (the output is exactly the task-independent part plus
the task notes, and the "Other" notes are empty); and for a 50-percent
missing column the message contains "50.0%" and the column name. -/
theorem c4_readiness_messages (df : DataFrame) (ml_task : String) :
    (∀ j nd, df.header[j]? = some nd →
      0 < naCount (getCol df.rows j) → 0 < df.rows.length →
      missingMsg nd.1 ((naCount (getCol df.rows j) : ℚ) / (df.rows.length : ℚ)) ∈
        check_ml_readiness df ml_task) ∧
    (∀ nm, (nm, Dtype.object) ∈ df.header →
      encodingMsg nm ∈ check_ml_readiness df ml_task) ∧
    (∀ nm, (nm, Dtype.datetime) ∈ df.header →
      datetimeMsg nm ∈ check_ml_readiness df ml_task) ∧
    decisionTreeMsg ∈ check_ml_readiness df "Decision Tree" ∧
    selfSupervisedMsg ∈ check_ml_readiness df "Self-supervised Learning" ∧
    (check_ml_readiness df ml_task = check_ml_readiness df "Other" ++ taskNotes ml_task ∧
      taskNotes "Other" = []) ∧
    (∀ j nd, df.header[j]? = some nd →
      2 * naCount (getCol df.rows j) = df.rows.length → 0 < df.rows.length →
      missingMsg nd.1 (1 / 2) ∈ check_ml_readiness df ml_task ∧
      strContains (missingMsg nd.1 (1 / 2)) "50.0%" = true ∧
      strContains (missingMsg nd.1 (1 / 2)) nd.1 = true) := by
  refine ⟨?_, ?_, ?_, ?_, ?_, ⟨check_parts df ml_task, taskNotes_other⟩, ?_⟩
  · intro j nd hh hcnt hrows
    exact check_mem_missing ml_task hh (pct_pos hcnt hrows)
  · intro nm h
    exact check_mem_encoding ml_task h
  · intro nm h
    exact check_mem_datetime ml_task h
  · unfold check_ml_readiness
    apply List.mem_append_right
    rw [taskNotes_decision_tree]
    exact List.mem_singleton.2 rfl
  · unfold check_ml_readiness
    apply List.mem_append_right
    rw [taskNotes_self_supervised]
    exact List.mem_singleton.2 rfl
  · intro j nd hh h2 hrows
    have hcnt : 0 < naCount (getCol df.rows j) := by omega
    have heq : ((naCount (getCol df.rows j) : ℚ) / (df.rows.length : ℚ)) = 1 / 2 :=
      pct_eq_half h2 hrows
    refine ⟨?_, missingMsg_contains_fifty nd.1, missingMsg_contains_name nd.1 _⟩
    have hm := check_mem_missing ml_task hh (pct_pos hcnt hrows)
    rwa [heq] at hm

/-- Witness for C4 at a concrete dataset that is 50 percent missing in
column `value`: the message is emitted and carries "50.0%" and the
column name. -/
theorem c4_readiness_witness :
    missingMsg "value" (1 / 2) ∈ check_ml_readiness dfMissingHalf "Other" ∧
    strContains (missingMsg "value" (1 / 2)) "50.0%" = true ∧
    strContains (missingMsg "value" (1 / 2)) "value" = true := by
  exact (c4_readiness_messages dfMissingHalf "Other").2.2.2.2.2.2 0 ("value", Dtype.numeric)
    (by decide) (by decide) (by decide)

/-- C7: during ingestion the date-like set is exactly the columns (in
original order — it is a filter, hence a subsequence) whose lowercased
name contains "date"; when non-empty the stream is re-read with those
columns as the date-parsing hint and an informational notice names them,
otherwise the stream is re-read without the hint and the fixed
no-date-columns notice is surfaced; and every object-dtype column not in
the date-like set has all its values coerced to their textual
rendering. -/
theorem c7_ingestion_date_columns (read : Option (List String) → DataFrame) :
    (((read none).header.map Prod.fst).filter containsDateCi).Sublist
      ((read none).header.map Prod.fst) ∧
    (∀ c, c ∈ ((read none).header.map Prod.fst).filter containsDateCi ↔
      c ∈ (read none).header.map Prod.fst ∧
        ∃ s t, s ++ ("date".data ++ t) = c.data.map Char.toLower) ∧
    (((read none).header.map Prod.fst).filter containsDateCi = [] →
      ingest read =
        (coerceObjects (((read none).header.map Prod.fst).filter containsDateCi) (read none),
         Notice.warn "No date columns detected in the dataset")) ∧
    (((read none).header.map Prod.fst).filter containsDateCi ≠ [] →
      ingest read =
        (coerceObjects (((read none).header.map Prod.fst).filter containsDateCi)
           (read (some (((read none).header.map Prod.fst).filter containsDateCi))),
         Notice.info ("Date parsing applied to columns: " ++
           String.intercalate ", "
             (((read none).header.map Prod.fst).filter containsDateCi)))) ∧
    (∀ (dateColumns : List String) (df : DataFrame), df.Wf →
      ∀ j nm, df.header[j]? = some (nm, Dtype.object) → nm ∉ dateColumns →
        getCol (coerceObjects dateColumns df).rows j =
          (getCol df.rows j).map (fun c => Cell.str (pyStr c))) := by
  refine ⟨List.filter_sublist _, ?_, ?_, ?_, ?_⟩
  · intro c
    rw [List.mem_filter]
    constructor
    · rintro ⟨h1, h2⟩
      exact ⟨h1, (containsDateCi_iff c).1 h2⟩
    · rintro ⟨h1, h2⟩
      exact ⟨h1, (containsDateCi_iff c).2 h2⟩
  · intro h
    unfold ingest
    rw [if_pos h]
  · intro h
    unfold ingest
    rw [if_neg h]
  · intro dateColumns df hwf j nm hh hnm
    exact getCol_coerceObjects_object hwf hh hnm

/-- Witness for C7 at a concrete reader: the `start_Date` column is
detected, the date-hinted re-read is used with the info notice, and the
mixed `note` object column is fully coerced to text. -/
theorem c7_ingestion_witness :
    ingest readW =
      (coerceObjects ["start_Date"] (readW (some ["start_Date"])),
       Notice.info "Date parsing applied to columns: start_Date") ∧
    getCol (coerceObjects ["start_Date"] (readW (some ["start_Date"]))).rows 2 =
      (getCol (readW (some ["start_Date"])).rows 2).map (fun c => Cell.str (pyStr c)) := by
  have hd : (((readW none).header.map Prod.fst).filter containsDateCi) = ["start_Date"] := by
    decide
  have h := c7_ingestion_date_columns readW
  constructor
  · have h4 := h.2.2.2.1 (by rw [hd]; decide)
    rw [hd] at h4
    rw [show ("Date parsing applied to columns: " ++
        String.intercalate ", " ["start_Date"]) =
      "Date parsing applied to columns: start_Date" from by decide] at h4
    exact h4
  · exact h.2.2.2.2 ["start_Date"] (readW (some ["start_Date"])) (by decide) 2 "note"
      (by decide) (by decide)

/-- C8: the exported script contains every log entry verbatim, indented,
in log order at consecutive lines after the fixed seven-line header; the
generated function's last line returns the dataset; the file content is
exactly the joined lines with no validation of entries; and on an empty
log the generated body returns its input dataset unchanged under the
statement semantics. -/
theorem c8_script_export (ts : String) (log : List String) :
    (∀ i, i < log.length →
      (scriptLines ts log)[7 + i]? = some ("    " ++ log.getD i "")) ∧
    (scriptLines ts log)[5]? = some "def transform_data(df):" ∧
    (scriptLines ts log).getLast? = some "    return df" ∧
    scriptContent ts log = String.intercalate "\n" (scriptLines ts log) ∧
    (∀ (α : Type) (df : α), runBody df (transformBody ts []) = some df) := by
  refine ⟨fun i h => scriptLines_entry ts log i h, ?_, scriptLines_last ts log, rfl,
    fun α df => runBody_transformBody_nil ts df⟩
  unfold scriptLines
  rw [List.getElem?_append, if_pos (by
    simp only [List.length_append, List.length_map, List.length_cons, List.length_nil]
    omega)]
  rw [List.getElem?_append, if_pos (by
    simp only [List.length_cons, List.length_nil]
    omega)]
  rfl

/-- Witness for C8: a one-entry log lands verbatim and indented at line
index 7, and the empty-log body returns its input unchanged. -/
theorem c8_script_export_witness :
    (scriptLines "2025-01-01 00:00:00" ["df.dropna(inplace=True)"])[7]? =
      some "    df.dropna(inplace=True)" ∧
    runBody (0 : ℕ) (transformBody "2025-01-01 00:00:00" []) = some 0 := by
  have h := c8_script_export "2025-01-01 00:00:00" ["df.dropna(inplace=True)"]
  refine ⟨?_, h.2.2.2.2 ℕ 0⟩
  have h0 := h.1 0 (by decide)
  rw [show (7 + 0) = 7 from rfl] at h0
  rw [h0]
  decide

/-- C9: each export action computes its artifact from the current
session state and returns the state — dataset and transformation log —
unchanged; the only failure channel is the filesystem write, whose error
is surfaced as a message through the surrounding handler while the
function still returns normally with the state intact. -/
theorem c9_exports_frame (toCsv : DataFrame → String)
    (renderReport : DataFrame → List String → String)
    (write : String → String → Option String) (ts : String)
    (a : ExportAction) (st : AppState) :
    (runExport toCsv renderReport write ts a st).1 = st ∧
    (write (exportArtifact toCsv renderReport ts a st).1
        (exportArtifact toCsv renderReport ts a st).2 = none →
      (runExport toCsv renderReport write ts a st).2 =
        exportSuccessMsg a (exportArtifact toCsv renderReport ts a st).1) ∧
    (∀ e, write (exportArtifact toCsv renderReport ts a st).1
        (exportArtifact toCsv renderReport ts a st).2 = some e →
      (runExport toCsv renderReport write ts a st).2 =
        "Error reading the CSV file: " ++ e) := by
  exact ⟨runExport_fst toCsv renderReport write ts a st,
    fun hw => runExport_snd_ok toCsv renderReport write ts a st hw,
    fun e hw => runExport_snd_err toCsv renderReport write ts a st e hw⟩

/-- Witness for C9 at a concrete state and a failing write: the state
comes back unchanged and the error text is surfaced. -/
theorem c9_exports_witness :
    (runExport (fun _ => "csv") (fun _ _ => "html") (fun _ _ => some "disk full") "TS"
      ExportAction.script ⟨dfNoMissing, []⟩).1 = ⟨dfNoMissing, []⟩ ∧
    (runExport (fun _ => "csv") (fun _ _ => "html") (fun _ _ => some "disk full") "TS"
      ExportAction.script ⟨dfNoMissing, []⟩).2 = "Error reading the CSV file: disk full" := by
  have h := c9_exports_frame (fun _ => "csv") (fun _ _ => "html")
    (fun _ _ => some "disk full") "TS" ExportAction.script ⟨dfNoMissing, []⟩
  exact ⟨h.1, h.2.2 "disk full" rfl⟩
